import Mathlib

/-!
Verification of the ADF-to-Markdown renderer in
`src/jira-read-ticket/scripts/jira.py`.

The renderer works on JSON-shaped values (Python dicts, lists, strings,
numbers, booleans, None).  `JVal` is that value space.  Python operations
that can raise (`x.get` on a non-dict, `int()` on a non-numeric string,
iteration of a non-iterable, string operations on non-strings) are modelled
in the `Except String` monad, the error string naming the Python exception
class.  Recursive rendering functions take a fuel argument (first argument)
and return the modelled exception "fuel" when it runs out; every recursive
call strictly decreases the fuel, so all definitions are structural and
reduce by `rfl` on concrete inputs.
-/

namespace JiraAdf

/-- A JSON-shaped Python value: None, bool, int, str, list or dict. -/
inductive JVal where
  | null
  | bool (b : Bool)
  | num (n : Int)
  | str (s : String)
  | arr (xs : List JVal)
  | obj (fs : List (String × JVal))

/-- First binding of a key in a dict's field list. -/
def lookupField : List (String × JVal) → String → Option JVal
  | [], _ => none
  | (k, v) :: fs, key => if k = key then some v else lookupField fs key

/-- Python truthiness of a value (`bool(x)`). -/
def JVal.truthy : JVal → Bool
  | .null => false
  | .bool b => b
  | .num n => n != 0
  | .str s => s ≠ ""
  | .arr xs => !xs.isEmpty
  | .obj fs => !fs.isEmpty

/-- Python `x == "lit"`: true exactly when `x` is that string. -/
def jstr_eq (v : JVal) (s : String) : Bool :=
  match v with
  | .str t => t = s
  | _ => false

/-- Python `d.get(k)`: the value under `k` (None when absent); AttributeError
when the receiver is not a dict. -/
def pyGet (v : JVal) (k : String) : Except String JVal :=
  match v with
  | .obj fs => .ok ((lookupField fs k).getD .null)
  | _ => .error "AttributeError"

/-- Python `d.get(k, default)`: the default only when the key is absent. -/
def pyGetD (v : JVal) (k : String) (d : JVal) : Except String JVal :=
  match v with
  | .obj fs => .ok ((lookupField fs k).getD d)
  | _ => .error "AttributeError"

/-- Python `a or b`: `a` when truthy, else `b`. -/
def pyOr (a b : JVal) : JVal :=
  if a.truthy then a else b

/-- Python iteration (`for x in v`): list elements, string characters,
dict keys; TypeError otherwise. -/
def pyIter : JVal → Except String (List JVal)
  | .arr xs => .ok xs
  | .str s => .ok (s.data.map (fun c => .str (String.mk [c])))
  | .obj fs => .ok (fs.map (fun p => .str p.1))
  | _ => .error "TypeError"

/-- A value used where Python requires a `str` (string methods, `str.join`,
`+=` onto a string): the string itself, or the TypeError/AttributeError the
use would raise. -/
def asStr : JVal → Except String String
  | .str s => .ok s
  | _ => .error "TypeError"

/-- Python `str(x)` as used in the renderer's f-strings.  Scalars only:
`str()` of a list or dict never occurs on the rendered paths checked here,
so containers map to an error. -/
def pyStr : JVal → Except String String
  | .str s => .ok s
  | .num n => .ok (toString n)
  | .bool true => .ok "True"
  | .bool false => .ok "False"
  | .null => .ok "None"
  | .arr _ => .error "TypeError"
  | .obj _ => .error "TypeError"

/-- Decimal digit run parsed to a Nat; none when empty or non-digit. -/
def parse_digits (ds : List Char) : Option Nat :=
  if ds.isEmpty then none
  else
    ds.foldl
      (fun acc c =>
        match acc with
        | none => none
        | some n => if '0' ≤ c ∧ c ≤ '9' then some (n * 10 + (c.toNat - '0'.toNat)) else none)
      (some 0)

/-- Python whitespace characters stripped by `str.strip` and friends. -/
def pyIsSpace (c : Char) : Bool :=
  c = ' ' || c = '\t' || c = '\n' || c = '\r' || c = '\x0b' || c = '\x0c'

/-- Python `s.strip()`. -/
def pyStrip (s : String) : String :=
  ⟨((s.data.dropWhile pyIsSpace).reverse.dropWhile pyIsSpace).reverse⟩

/-- Python `s.rstrip()`. -/
def pyRstrip (s : String) : String :=
  ⟨(s.data.reverse.dropWhile pyIsSpace).reverse⟩

/-- Python `int(s)` on a string: optional sign around a digit run, with
surrounding whitespace allowed. -/
def parse_int (s : String) : Option Int :=
  match (pyStrip s).data with
  | '-' :: ds => (parse_digits ds).map (fun n => -(n : Int))
  | '+' :: ds => (parse_digits ds).map (fun n => (n : Int))
  | ds => (parse_digits ds).map (fun n => (n : Int))

/-- Python `int(x)`: ints and bools pass through, strings are parsed
(ValueError when unparsable), anything else is a TypeError. -/
def pyInt : JVal → Except String Int
  | .num n => .ok n
  | .bool true => .ok 1
  | .bool false => .ok 0
  | .str s =>
    match parse_int s with
    | some n => .ok n
    | none => .error "ValueError"
  | _ => .error "TypeError"

/-- Replace every occurrence of the character `c` by the string `r`
(Python `s.replace(c, r)` for a one-character pattern). -/
def str_replace_char (s : String) (c : Char) (r : String) : String :=
  ⟨s.data.foldr (fun a acc => (if a = c then r.data else [a]) ++ acc) []⟩

/-- Python `sep.join(parts)`. -/
def strJoin (sep : String) : List String → String
  | [] => ""
  | [x] => x
  | x :: xs => x ++ sep ++ strJoin sep xs

/-- `s.split("\n")`: the parts between newline characters, in order. -/
def split_nl_aux : List Char → List Char → List String
  | [], cur => [⟨cur.reverse⟩]
  | '\n' :: rest, cur => ⟨cur.reverse⟩ :: split_nl_aux rest []
  | c :: rest, cur => split_nl_aux rest (c :: cur)

/-- Python `s.splitlines()` for strings whose only line separator is `\n`
(the renderer never inserts any other): empty string gives no lines, and a
trailing newline yields no trailing empty line. -/
def pySplitlines (s : String) : List String :=
  if s.data.isEmpty then []
  else if s.data.getLast? = some '\n' then (split_nl_aux s.data []).dropLast
  else split_nl_aux s.data []

/-- Python `s * n` for a string (used for indentation). -/
def str_repeat (s : String) (n : Nat) : String :=
  ⟨(List.replicate n s.data).flatten⟩

/-- `INDENT = "  "` from the source. -/
def INDENT : String := "  "

/-- `_escape_markdown`: double backslashes first, then backslash-escape
each literal Markdown metacharacter, in the source's order. -/
def _escape_markdown (text : String) : String :=
  let escaped := str_replace_char text '\\' "\\\\"
  let escaped := str_replace_char escaped '`' "\\`"
  let escaped := str_replace_char escaped '*' "\\*"
  let escaped := str_replace_char escaped '_' "\\_"
  let escaped := str_replace_char escaped '~' "\\~"
  let escaped := str_replace_char escaped '[' "\\["
  str_replace_char escaped ']' "\\]"

/-- `any(mark.get("type") == "code" for mark in marks)`, short-circuiting. -/
def any_code_mark : List JVal → Except String Bool
  | [] => .ok false
  | m :: ms => do
    let t ← pyGet m "type"
    if jstr_eq t "code" then .ok true else any_code_mark ms

/-- The `for mark in marks` loop of `_apply_marks`: wrap the accumulated
value for each recognized mark type, in the order marks appear. -/
def marks_fold : String → List JVal → Except String String
  | v, [] => .ok v
  | v, m :: ms => do
    let t ← pyGet m "type"
    let v' :=
      if jstr_eq t "strong" then "**" ++ v ++ "**"
      else if jstr_eq t "em" then "*" ++ v ++ "*"
      else if jstr_eq t "strike" then "~~" ++ v ++ "~~"
      else if jstr_eq t "underline" then "<u>" ++ v ++ "</u>"
      else v
    marks_fold v' ms

/-- `next((mark for mark in marks if mark.get("type") == "link"), None)`. -/
def find_link_mark : List JVal → Except String (Option JVal)
  | [] => .ok none
  | m :: ms => do
    let t ← pyGet m "type"
    if jstr_eq t "link" then .ok (some m) else find_link_mark ms

/-- `_apply_marks(text, marks)` from the source. -/
def _apply_marks (text : String) (marks : List JVal) : Except String String :=
  if marks.isEmpty then .ok (_escape_markdown text)
  else do
    let hasCode ← any_code_mark marks
    if hasCode then
      .ok ("`" ++ str_replace_char text '`' "\\`" ++ "`")
    else do
      let v ← marks_fold (_escape_markdown text) marks
      let linkOpt ← find_link_mark marks
      match linkOpt with
      | none => .ok v
      | some link => do
        let attrs := pyOr (← pyGet link "attrs") (.obj [])
        let href ← pyGet attrs "href"
        if href.truthy then do
          let hs ← pyStr href
          .ok ("[" ++ v ++ "](" ++ hs ++ ")")
        else .ok v

/-- A bare formatting mark record, `{"type": t}`. -/
def mk_mark (t : String) : JVal := .obj [("type", .str t)]

/-- One step of the mark loop of `_apply_marks`, on the mark's type string:
wrap the accumulated value when the type is a recognized wrapping mark. -/
def mark_wrap (v t : String) : String :=
  if t = "strong" then "**" ++ v ++ "**"
  else if t = "em" then "*" ++ v ++ "*"
  else if t = "strike" then "~~" ++ v ++ "~~"
  else if t = "underline" then "<u>" ++ v ++ "</u>"
  else v

/-- A text inline node. -/
def mkText (s : String) : JVal := .obj [("type", .str "text"), ("text", .str s)]

/-- A paragraph node with the given inline children. -/
def mkPara (cs : List JVal) : JVal := .obj [("type", .str "paragraph"), ("content", .arr cs)]

/-- A doc node with the given block children. -/
def mkDoc (cs : List JVal) : JVal := .obj [("type", .str "doc"), ("content", .arr cs)]

/-- A list item node with the given block children. -/
def mkItem (cs : List JVal) : JVal := .obj [("type", .str "listItem"), ("content", .arr cs)]

/-- A document whose only block is a heading with the malformed (non-numeric)
attribute `level = "x"`, on which `int(level)` raises ValueError. -/
def c2_bad_input : JVal :=
  mkDoc [.obj [("type", .str "heading"), ("attrs", .obj [("level", .str "x")])]]

/-- A document holding a headerless one-row, one-cell table. -/
def c3_headerless_table_doc : JVal :=
  mkDoc [.obj [("type", .str "table"), ("content", .arr [
    .obj [("type", .str "tableRow"), ("content", .arr [
      .obj [("type", .str "tableCell"), ("content", .arr [mkPara [mkText "a"]])]])]])]]

/-- The three-item list body of the C6 witness. -/
def ord5_items : List JVal :=
  [mkItem [mkPara [mkText "a"]], mkItem [mkPara [mkText "b"]], mkItem [mkPara [mkText "c"]]]

/-- An orderedList node with `attrs.order = 5` and three items. -/
def ord5_list_node : JVal :=
  .obj [("type", .str "orderedList"), ("attrs", .obj [("order", .num 5)]),
    ("content", .arr ord5_items)]

/-- The bullet string of an ordered list item (`bullet_prefix` in the
source, for `ordered = True`): indentation, the index, a dot, a space. -/
def ord_bullet (lvl : Nat) (idx : Int) : String :=
  str_repeat INDENT lvl ++ (toString idx ++ ".") ++ " "

/-- The continuation indentation of an ordered list item
(`continuation_prefix` in the source). -/
def ord_cont (lvl : Nat) (idx : Int) : String :=
  str_repeat " " (ord_bullet lvl idx).length

/-- A tableHeader cell holding one paragraph. -/
def mk_header_cell (s : String) : JVal :=
  .obj [("type", .str "tableHeader"), ("content", .arr [mkPara [mkText s]])]

/-- A tableCell cell holding one paragraph. -/
def mk_data_cell (s : String) : JVal :=
  .obj [("type", .str "tableCell"), ("content", .arr [mkPara [mkText s]])]

/-- The header row of the C5 witness table. -/
def c5_row1 : JVal :=
  .obj [("type", .str "tableRow"), ("content", .arr [mk_header_cell "h1", mk_header_cell "h2"])]

/-- The data row of the C5 witness table. -/
def c5_row2 : JVal :=
  .obj [("type", .str "tableRow"), ("content", .arr [mk_data_cell "d1", mk_data_cell "d2"])]

/-- A two-row table: a header row, then a data row. -/
def c5_table_node : JVal :=
  .obj [("type", .str "table"), ("content", .arr [c5_row1, c5_row2])]

/-- A marks list holding a code mark and a link mark with a non-empty href. -/
def code_link_marks : List JVal :=
  [mk_mark "code", .obj [("type", .str "link"), ("attrs", .obj [("href", .str "https://example.test")])]]

/-- `isinstance(x, dict) and x.get("type") == "doc"`. -/
def isDocDict : JVal → Bool
  | .obj fs => jstr_eq ((lookupField fs "type").getD .null) "doc"
  | _ => false

/-- `_extract_doc(value)` from the source: the doc node to render, if any. -/
def _extract_doc (value : JVal) : Option JVal :=
  match value with
  | .obj fs =>
    if jstr_eq ((lookupField fs "type").getD .null) "doc" then some value
    else
      let body := (lookupField fs "body").getD .null
      if isDocDict body then some body
      else
        let description := (lookupField fs "description").getD .null
        if isDocDict description then some description
        else
          match (lookupField fs "content").getD .null with
          | .arr _ =>
            match (lookupField fs "version").getD .null with
            | .null => none
            | _ => some value
          | _ => none
  | _ => none

/-- The document-unwrapping contract as the spec words it (spec section 4.1),
the refinement target for `_extract_doc`: a priority list over the input
value, first match wins — (1) the value itself is a doc-type node, (2) its
body field is a doc-type node, (3) its description field is a doc-type node,
(4) it has a content sequence and a non-null version field; otherwise no
document is found. -/
def spec_extract_doc (v : JVal) : Option JVal :=
  if isDocDict v then some v
  else
    match v with
    | .obj fs =>
      if isDocDict ((lookupField fs "body").getD .null) then
        some ((lookupField fs "body").getD .null)
      else if isDocDict ((lookupField fs "description").getD .null) then
        some ((lookupField fs "description").getD .null)
      else
        match (lookupField fs "content").getD .null with
        | .arr _ =>
          match (lookupField fs "version").getD .null with
          | .null => none
          | _ => some v
        | _ => none
    | _ => none

mutual

/-- `_collect_text(node)` and its recursion over children.  The Python
function returns the node's raw `text` payload; a non-string payload would
make the caller's later string use raise, modelled by `asStr` here. -/
def _collect_text : Nat → JVal → Except String String
  | 0, _ => .error "fuel"
  | fuel + 1, node =>
    match node with
    | .obj fs =>
      let t := (lookupField fs "type").getD .null
      if jstr_eq t "text" then asStr (pyOr ((lookupField fs "text").getD .null) (.str ""))
      else if jstr_eq t "hardBreak" then .ok "\n"
      else if jstr_eq t "emoji" || jstr_eq t "mention" then do
        let attrs := pyOr ((lookupField fs "attrs").getD .null) (.obj [])
        let x := pyOr (← pyGet attrs "text") (← pyGet attrs "shortName")
        asStr (pyOr x (.str ""))
      else
        match (lookupField fs "content").getD .null with
        | .arr children => collect_children fuel children
        | _ => .ok ""
    | _ => .ok ""

/-- `"".join(_collect_text(child) for child in content)`. -/
def collect_children : Nat → List JVal → Except String String
  | _, [] => .ok ""
  | 0, _ :: _ => .error "fuel"
  | fuel + 1, c :: rest => do
    let s ← _collect_text fuel c
    let r ← collect_children fuel rest
    .ok (s ++ r)

end

/-- One pipe-table line: `"| " + " | ".join(row + [""] * (col_count - len(row))) + " |"`. -/
def pipe_line (colCount : Nat) (row : List String) : String :=
  "| " ++ strJoin " | " (row ++ List.replicate (colCount - row.length) "") ++ " |"

/-- The header separator line: `"| " + " | ".join(["---"] * col_count) + " |"`. -/
def sep_line (colCount : Nat) : String :=
  "| " ++ strJoin " | " (List.replicate colCount "---") ++ " |"

mutual

/-- `_MarkdownRenderer._render_block`: dispatch one block node by type. -/
def _render_block : Nat → JVal → Nat → Except String (List String)
  | 0, _, _ => .error "fuel"
  | f + 1, node, listLevel => do
    let t ← pyGet node "type"
    if jstr_eq t "paragraph" then _render_paragraph_lines f node
    else if jstr_eq t "heading" then do
      let s ← _render_heading f node
      .ok [s]
    else if jstr_eq t "bulletList" then _render_list f node listLevel false
    else if jstr_eq t "orderedList" then _render_list f node listLevel true
    else if jstr_eq t "blockquote" then _render_blockquote f node listLevel
    else if jstr_eq t "panel" then _render_panel f node listLevel
    else if jstr_eq t "codeBlock" then _render_code_block f node
    else if jstr_eq t "rule" then .ok ["---"]
    else if jstr_eq t "table" then _render_table f node
    else do
      let text ← _collect_text f node
      .ok (if text = "" then [] else [text])
termination_by structural f => f

/-- `_render_paragraph_lines(renderer, node)`: accumulate inline children
into lines, hard breaks closing the current line. -/
def _render_paragraph_lines : Nat → JVal → Except String (List String)
  | 0, _ => .error "fuel"
  | f + 1, node => do
    let children ← pyIter (pyOr (← pyGet node "content") (.arr []))
    para_loop f children [] ""

/-- The `for child in node.get("content") or []` loop of
`_render_paragraph_lines`: `prev` holds the closed lines, `cur` the line
being accumulated (the source's `lines[-1]`). -/
def para_loop : Nat → List JVal → List String → String → Except String (List String)
  | _, [], prev, cur => .ok (prev ++ [cur])
  | 0, _ :: _, _, _ => .error "fuel"
  | f + 1, child :: rest, prev, cur => do
    let t ← pyGet child "type"
    if jstr_eq t "hardBreak" then
      para_loop f rest (prev ++ [pyRstrip cur ++ "  "]) ""
    else do
      let s ← _render_inline f child
      para_loop f rest prev (cur ++ s)
termination_by structural f => f

/-- `_MarkdownRenderer._render_heading`: level clamped to 1..6. -/
def _render_heading : Nat → JVal → Except String String
  | 0, _ => .error "fuel"
  | f + 1, node => do
    let attrs ← pyGetD node "attrs" (.obj [])
    let levelv ← pyGetD attrs "level" (.num 1)
    let n ← pyInt levelv
    let level := max 1 (min 6 n)
    let children ← pyIter (pyOr (← pyGet node "content") (.arr []))
    let text ← _inline_join f children
    .ok (pyRstrip (str_repeat "#" level.toNat ++ " " ++ text))

/-- `"".join(self._render_inline(child) for child in children)`. -/
def _inline_join : Nat → List JVal → Except String String
  | _, [] => .ok ""
  | 0, _ :: _ => .error "fuel"
  | f + 1, c :: rest => do
    let s ← _render_inline f c
    let r ← _inline_join f rest
    .ok (s ++ r)
termination_by structural f => f

/-- `_MarkdownRenderer._render_list`: ordered lists start at `attrs.order`
(default 1). -/
def _render_list : Nat → JVal → Nat → Bool → Except String (List String)
  | 0, _, _, _ => .error "fuel"
  | f + 1, node, listLevel, ordered => do
    let attrs ← pyGetD node "attrs" (.obj [])
    let startv ← pyGetD attrs "order" (.num 1)
    let index ← if ordered then pyInt startv else pure 1
    let items ← pyIter (pyOr (← pyGet node "content") (.arr []))
    list_items_loop f items listLevel ordered index
termination_by structural f => f

/-- The `for item in ...` loop of `_render_list`: `index += 1` per item when
ordered. -/
def list_items_loop : Nat → List JVal → Nat → Bool → Int → Except String (List String)
  | _, [], _, _, _ => .ok []
  | 0, _ :: _, _, _, _ => .error "fuel"
  | f + 1, item :: rest, listLevel, ordered, index => do
    let ls ← _render_list_item f item listLevel ordered index
    let rs ← list_items_loop f rest listLevel ordered (if ordered then index + 1 else index)
    .ok (ls ++ rs)
termination_by structural f => f

/-- `_MarkdownRenderer._render_list_item`. -/
def _render_list_item : Nat → JVal → Nat → Bool → Int → Except String (List String)
  | 0, _, _, _, _ => .error "fuel"
  | f + 1, node, listLevel, ordered, index => do
    let indent := str_repeat INDENT listLevel
    let bullet := if ordered then toString index ++ "." else "-"
    let bulletPre := indent ++ bullet ++ " "
    let contPre := str_repeat " " bulletPre.length
    let contentJ := pyOr (← pyGet node "content") (.arr [])
    if !contentJ.truthy then .ok [pyRstrip bulletPre]
    else do
      let content ← pyIter contentJ
      match content with
      | [] => .error "IndexError"
      | first :: rest => do
        let t ← pyGet first "type"
        let headLines ←
          if jstr_eq t "paragraph" then do
            let pls ← _render_paragraph_lines f first
            match pls with
            | [] => pure [pyRstrip bulletPre]
            | p0 :: prest => pure ((bulletPre ++ p0) :: prest.map (fun l => contPre ++ l))
          else do
            let bl ← _render_block_in_list f first listLevel contPre
            pure (pyRstrip bulletPre :: bl)
        let tailLines ← blocks_in_list_loop f rest listLevel contPre
        .ok (headLines ++ tailLines)
termination_by structural f => f

/-- `_MarkdownRenderer._render_block_in_list`: nested lists deepen a level,
other blocks get the continuation indentation. -/
def _render_block_in_list : Nat → JVal → Nat → String → Except String (List String)
  | 0, _, _, _ => .error "fuel"
  | f + 1, node, listLevel, contPre => do
    let t ← pyGet node "type"
    if jstr_eq t "bulletList" || jstr_eq t "orderedList" then
      _render_block f node (listLevel + 1)
    else do
      let bl ← _render_block f node listLevel
      .ok (bl.map (fun l => contPre ++ l))
termination_by structural f => f

/-- The `for block in content[1:]` loop of `_render_list_item`. -/
def blocks_in_list_loop : Nat → List JVal → Nat → String → Except String (List String)
  | _, [], _, _ => .ok []
  | 0, _ :: _, _, _ => .error "fuel"
  | f + 1, node :: rest, listLevel, contPre => do
    let ls ← _render_block_in_list f node listLevel contPre
    let rs ← blocks_in_list_loop f rest listLevel contPre
    .ok (ls ++ rs)
termination_by structural f => f

/-- `_MarkdownRenderer._render_blockquote`. -/
def _render_blockquote : Nat → JVal → Nat → Except String (List String)
  | 0, _, _ => .error "fuel"
  | f + 1, node, listLevel => do
    let nodes ← pyIter (pyOr (← pyGet node "content") (.arr []))
    let inner ← _render_inner_blocks f nodes listLevel false
    match inner with
    | [] => .ok [">"]
    | _ => .ok (inner.map (fun l => pyRstrip ("> " ++ l)))
termination_by structural f => f

/-- `_MarkdownRenderer._render_panel`: like blockquote, with a bold escaped
title on the first line when `attrs.title` is truthy. -/
def _render_panel : Nat → JVal → Nat → Except String (List String)
  | 0, _, _ => .error "fuel"
  | f + 1, node, listLevel => do
    let attrs := pyOr (← pyGet node "attrs") (.obj [])
    let titlev ← pyGet attrs "title"
    let title ←
      if titlev.truthy then do
        let ts ← pyStr titlev
        pure ("**" ++ _escape_markdown ts ++ "** ")
      else pure ""
    let nodes ← pyIter (pyOr (← pyGet node "content") (.arr []))
    let inner ← _render_inner_blocks f nodes listLevel false
    match inner with
    | [] => .ok [pyRstrip ("> " ++ title)]
    | i0 :: irest =>
      let first := if title = "" then [pyRstrip ("> " ++ i0)] else [pyRstrip ("> " ++ title ++ i0)]
      .ok (first ++ irest.map (fun l => pyRstrip ("> " ++ l)))
termination_by structural f => f

/-- `_MarkdownRenderer._render_code_block`: fence, verbatim body (an empty
body still yields one empty line), closing fence. -/
def _render_code_block : Nat → JVal → Except String (List String)
  | 0, _ => .error "fuel"
  | f + 1, node => do
    let attrs := pyOr (← pyGet node "attrs") (.obj [])
    let languagev := pyOr (← pyGet attrs "language") (.str "")
    let code ← _collect_text f node
    let fence ←
      if languagev.truthy then do
        let ls ← pyStr languagev
        pure ("```" ++ ls)
      else pure "```"
    let lines :=
      match pySplitlines code with
      | [] => [""]
      | ls => ls
    .ok (fence :: (lines ++ ["```"]))

/-- `_MarkdownRenderer._render_table`. -/
def _render_table : Nat → JVal → Except String (List String)
  | 0, _ => .error "fuel"
  | f + 1, node => do
    let rowsJ := pyOr (← pyGet node "content") (.arr [])
    if !rowsJ.truthy then .ok []
    else do
      let rows ← pyIter rowsJ
      let (rrows, headerRow) ← table_rows_loop f rows false
      match rrows with
      | [] => .ok []
      | r0 :: rest =>
        let colCount := rest.foldl (fun acc r => max acc r.length) r0.length
        let lines := if headerRow then [pipe_line colCount r0, sep_line colCount] else [pipe_line colCount r0]
        let tailRows := if headerRow then rest else r0 :: rest
        .ok (lines ++ tailRows.map (pipe_line colCount))
termination_by structural f => f

/-- The `for row in rows` loop of `_render_table`: rendered cell strings per
row, and whether any cell so far was a `tableHeader`. -/
def table_rows_loop : Nat → List JVal → Bool → Except String (List (List String) × Bool)
  | _, [], headerRow => .ok ([], headerRow)
  | 0, _ :: _, _ => .error "fuel"
  | f + 1, row :: rest, headerRow => do
    let cells ← pyIter (pyOr (← pyGet row "content") (.arr []))
    let (rcells, h1) ← cells_loop f cells headerRow
    let (rrest, h2) ← table_rows_loop f rest h1
    .ok (rcells :: rrest, h2)
termination_by structural f => f

/-- The `for cell in cells` loop of `_render_table`: a `tableHeader` cell
sets the header flag; each cell renders tight and multi-line cells join
with `<br>`. -/
def cells_loop : Nat → List JVal → Bool → Except String (List String × Bool)
  | _, [], headerRow => .ok ([], headerRow)
  | 0, _ :: _, _ => .error "fuel"
  | f + 1, cell :: rest, headerRow => do
    let t ← pyGet cell "type"
    let h1 := if jstr_eq t "tableHeader" then true else headerRow
    let cellLines ← _render_cell f cell
    let s := pyStrip (strJoin "<br>" cellLines)
    let (srest, h2) ← cells_loop f rest h1
    .ok (s :: srest, h2)
termination_by structural f => f

/-- `_MarkdownRenderer._render_cell`. -/
def _render_cell : Nat → JVal → Except String (List String)
  | 0, _ => .error "fuel"
  | f + 1, node => do
    let nodes ← pyIter (pyOr (← pyGet node "content") (.arr []))
    _render_inner_blocks f nodes 0 true
termination_by structural f => f

/-- `_MarkdownRenderer._render_inner_blocks`: join rendered child blocks
with a blank line (or a single newline when tight) and split back into
lines. -/
def _render_inner_blocks : Nat → List JVal → Nat → Bool → Except String (List String)
  | 0, _, _, _ => .error "fuel"
  | f + 1, nodes, listLevel, tight => do
    let blocks ← blocks_loop f nodes listLevel
    match blocks with
    | [] => .ok []
    | _ => .ok (pySplitlines (strJoin (if tight then "\n" else "\n\n") blocks))
termination_by structural f => f

/-- The block-collection loop shared by `render` and `_render_inner_blocks`:
children rendering to no lines are dropped, the rest joined into one string
per block. -/
def blocks_loop : Nat → List JVal → Nat → Except String (List String)
  | _, [], _ => .ok []
  | 0, _ :: _, _ => .error "fuel"
  | f + 1, node :: rest, listLevel => do
    let lines ← _render_block f node listLevel
    let rs ← blocks_loop f rest listLevel
    .ok (if lines.isEmpty then rs else strJoin "\n" lines :: rs)
termination_by structural f => f

/-- `_MarkdownRenderer._render_inline`: one inline node to a string. -/
def _render_inline : Nat → JVal → Except String String
  | 0, _ => .error "fuel"
  | f + 1, node => do
    let t ← pyGet node "type"
    if jstr_eq t "text" then do
      let s ← asStr (pyOr (← pyGet node "text") (.str ""))
      let marks ← pyIter (pyOr (← pyGet node "marks") (.arr []))
      _apply_marks s marks
    else if jstr_eq t "emoji" then do
      let attrs := pyOr (← pyGet node "attrs") (.obj [])
      asStr (pyOr (pyOr (← pyGet attrs "text") (← pyGet attrs "shortName")) (.str ""))
    else if jstr_eq t "mention" then do
      let attrs := pyOr (← pyGet node "attrs") (.obj [])
      let tv := pyOr (pyOr (pyOr (← pyGet attrs "text") (← pyGet attrs "displayName")) (← pyGet attrs "id")) (.str "")
      if tv.truthy then do
        let s ← pyStr tv
        .ok ("@" ++ s)
      else .ok ""
    else if jstr_eq t "inlineCard" then do
      let attrs := pyOr (← pyGet node "attrs") (.obj [])
      let url := pyOr (← pyGet attrs "url") (.str "")
      if url.truthy then do
        let s ← pyStr url
        .ok ("<" ++ s ++ ">")
      else .ok ""
    else if jstr_eq t "status" then do
      let attrs := pyOr (← pyGet node "attrs") (.obj [])
      let tv := pyOr (← pyGet attrs "text") (.str "")
      if tv.truthy then do
        let s ← asStr tv
        .ok ("`" ++ _escape_markdown s ++ "`")
      else .ok ""
    else if jstr_eq t "date" then do
      let attrs := pyOr (← pyGet node "attrs") (.obj [])
      asStr (pyOr (pyOr (← pyGet attrs "text") (← pyGet attrs "timestamp")) (.str ""))
    else if jstr_eq t "hardBreak" then .ok ""
    else do
      let content ← pyGet node "content"
      match content with
      | .arr children => _inline_join f children
      | _ => do
        let textv ← pyGet node "text"
        if textv.truthy then do
          let s ← pyStr textv
          .ok (_escape_markdown s)
        else do
          let attrs := pyOr (← pyGet node "attrs") (.obj [])
          let url ← pyGet attrs "url"
          if url.truthy then do
            let s ← pyStr url
            .ok ("<" ++ s ++ ">")
          else .ok ""
termination_by structural f => f

end

/-- `_MarkdownRenderer.render`: top-level blocks joined with blank lines. -/
def render (fuel : Nat) (doc : JVal) : Except String String := do
  let nodes ← pyIter (pyOr (← pyGet doc "content") (.arr []))
  let blocks ← blocks_loop fuel nodes 0
  .ok (strJoin "\n\n" blocks)

/-- `render_markdown(value)`: unwrap the document and render it, the empty
string when none is found. -/
def render_markdown (fuel : Nat) (value : JVal) : Except String String :=
  match _extract_doc value with
  | none => .ok ""
  | some doc => if !doc.truthy then .ok "" else render fuel doc

/-- The lines of an ordered list's items, numbered consecutively from `idx`:
`outs` holds one rendered line-list per item, where item `i` (0-based) was
rendered by `_render_list_item` at depth `lvl` with bullet index `idx + i`,
its lines are non-empty, and its first line starts with the item's
indentation followed by its own number and a dot. -/
def numbered_items_out (lvl : Nat) : List JVal → Int → List (List String) → Prop
  | [], _, outs => outs = []
  | item :: rest, idx, outs =>
    ∃ out tail, outs = out :: tail ∧
      (∃ g, _render_list_item g item lvl true idx = .ok out) ∧
      out ≠ [] ∧
      (∃ more, out.headD "" = str_repeat INDENT lvl ++ toString idx ++ "." ++ more) ∧
      numbered_items_out lvl rest (idx + 1) tail

/-- A table row holding at least one cell whose type is `tableHeader`,
reachable exactly the way `_render_table`'s loop reads it. -/
def row_has_header (row : JVal) : Prop :=
  ∃ cv cells, pyGet row "content" = .ok cv ∧ pyIter (pyOr cv (.arr [])) = .ok cells ∧
    ∃ c ∈ cells, pyGet c "type" = .ok (.str "tableHeader")

/-! ## Lemmas about `_apply_marks` -/

theorem jstr_eq_str (s t : String) : jstr_eq (.str s) t = decide (s = t) := rfl

theorem pyGet_mk_mark_type (t : String) : pyGet (mk_mark t) "type" = .ok (.str t) := rfl

theorem any_code_mark_cons_mk (t : String) (ms : List JVal) :
    any_code_mark (mk_mark t :: ms) = if t = "code" then .ok true else any_code_mark ms := by
  show (if jstr_eq (.str t) "code" = true then Except.ok true else any_code_mark ms) = _
  simp [jstr_eq_str]

theorem any_code_mark_of_not_mem (ts : List String) (h : "code" ∉ ts) :
    any_code_mark (ts.map mk_mark) = .ok false := by
  induction ts with
  | nil => rfl
  | cons t rest ih =>
    have ht : ¬t = "code" := fun e => h (e ▸ List.mem_cons_self t rest)
    rw [List.map_cons, any_code_mark_cons_mk, if_neg ht]
    exact ih (fun m => h (List.mem_cons_of_mem _ m))

theorem marks_fold_cons_mk (v t : String) (ms : List JVal) :
    marks_fold v (mk_mark t :: ms) = marks_fold (mark_wrap v t) ms := by
  show marks_fold
      (if jstr_eq (.str t) "strong" = true then "**" ++ v ++ "**"
        else if jstr_eq (.str t) "em" = true then "*" ++ v ++ "*"
        else if jstr_eq (.str t) "strike" = true then "~~" ++ v ++ "~~"
        else if jstr_eq (.str t) "underline" = true then "<u>" ++ v ++ "</u>"
        else v) ms = marks_fold (mark_wrap v t) ms
  congr 1
  simp [jstr_eq_str, mark_wrap]

theorem marks_fold_map_mk (ts : List String) (v : String) :
    marks_fold v (ts.map mk_mark) = .ok (ts.foldl mark_wrap v) := by
  induction ts generalizing v with
  | nil => rfl
  | cons t rest ih =>
    rw [List.map_cons, marks_fold_cons_mk, List.foldl_cons]
    exact ih (mark_wrap v t)

theorem find_link_mark_cons_mk (t : String) (ms : List JVal) :
    find_link_mark (mk_mark t :: ms) =
      if t = "link" then .ok (some (mk_mark t)) else find_link_mark ms := by
  show (if jstr_eq (.str t) "link" = true then Except.ok (some (mk_mark t))
      else find_link_mark ms) = _
  simp [jstr_eq_str]

theorem find_link_mark_map_mk (ts : List String) :
    find_link_mark (ts.map mk_mark) = .ok none ∨
      find_link_mark (ts.map mk_mark) = .ok (some (mk_mark "link")) := by
  induction ts with
  | nil => exact .inl rfl
  | cons t rest ih =>
    rw [List.map_cons, find_link_mark_cons_mk]
    by_cases hl : t = "link"
    · subst hl
      simp
    · rw [if_neg hl]
      exact ih

theorem ebind_ok {α β : Type} (a : α) (f : α → Except String β) :
    (Except.ok a >>= f) = f a := rfl

/-! ## C1: mark application order -/

/-- C1 counterexample: the claim says marks are applied in the fixed nesting
order strong, em, strike, underline regardless of source order, so that
marks `[strike, strong]` and `[strong, strike]` both render `~~**text**~~`.
On the code, `[strike, strong]` renders `**~~text~~**`, which differs from
the `[strong, strike]` rendering `~~**text**~~`. -/
theorem mark_order_counterexample :
    _apply_marks "text" [mk_mark "strike", mk_mark "strong"] = .ok "**~~text~~**" ∧
    _apply_marks "text" [mk_mark "strong", mk_mark "strike"] = .ok "~~**text**~~" ∧
    ("**~~text~~**" : String) ≠ "~~**text**~~" :=
  ⟨rfl, rfl, by decide⟩

/-- C1 amended: for a text node without a code mark, `_apply_marks` escapes
the text and then applies the marks in the order they appear in the node's
marks list, each recognized wrapping mark wrapping the previous result
(`mark_wrap`); the rendering of equal mark sets therefore depends on the
source order. -/
theorem marks_apply_in_source_order (text : String) (ts : List String)
    (h : "code" ∉ ts) :
    _apply_marks text (ts.map mk_mark) = .ok (ts.foldl mark_wrap (_escape_markdown text)) := by
  cases ts with
  | nil => rfl
  | cons t rest =>
    have h' : "code" ∉ t :: rest := h
    simp only [_apply_marks, List.map_cons, List.isEmpty_cons, Bool.false_eq_true, if_false]
    rw [show mk_mark t :: List.map mk_mark rest = List.map mk_mark (t :: rest) from rfl,
      any_code_mark_of_not_mem _ h', ebind_ok]
    simp only [Bool.false_eq_true, if_false]
    rw [marks_fold_map_mk, ebind_ok]
    rcases find_link_mark_map_mk (t :: rest) with hfl | hfl
    · rw [hfl, ebind_ok]
    · rw [hfl, ebind_ok]
      rfl

/-- C1 witness: the amended theorem applied at text `"text"` and source mark
order `[strike, strong]`. -/
theorem marks_apply_in_source_order_witness :
    ("code" : String) ∉ (["strike", "strong"] : List String) ∧
    _apply_marks "text" ((["strike", "strong"] : List String).map mk_mark) =
      .ok ((["strike", "strong"] : List String).foldl mark_wrap (_escape_markdown "text")) :=
  ⟨by decide, marks_apply_in_source_order "text" ["strike", "strong"] (by decide)⟩

/-! ## C9: a code mark overrides every other mark, link included -/

theorem any_code_mark_true (marks : List JVal)
    (hobj : ∀ m ∈ marks, ∃ fs, m = .obj fs)
    (hcode : ∃ m ∈ marks, pyGet m "type" = .ok (.str "code")) :
    any_code_mark marks = .ok true := by
  induction marks with
  | nil =>
    rcases hcode with ⟨m, hm, _⟩
    cases hm
  | cons m ms ih =>
    obtain ⟨fs, rfl⟩ := hobj m (List.mem_cons_self _ _)
    by_cases hc : jstr_eq ((lookupField fs "type").getD .null) "code" = true
    · show (if jstr_eq ((lookupField fs "type").getD .null) "code" = true then Except.ok true
        else any_code_mark ms) = .ok true
      rw [if_pos hc]
    · show (if jstr_eq ((lookupField fs "type").getD .null) "code" = true then Except.ok true
        else any_code_mark ms) = .ok true
      rw [if_neg hc]
      refine ih (fun x hx => hobj x (List.mem_cons_of_mem _ hx)) ?_
      rcases hcode with ⟨m', hm', ht'⟩
      rcases List.mem_cons.mp hm' with he | hm'
      · exfalso
        subst he
        have : (lookupField fs "type").getD .null = .str "code" := by
          have := ht'
          simp only [pyGet, Except.ok.injEq] at this
          exact this
        rw [this] at hc
        simp [jstr_eq_str] at hc
      · exact ⟨m', hm', ht'⟩

/-- C9: for a text node whose marks list holds a mark of type code, the
rendered string is the raw text with only backticks backslash-escaped,
wrapped in single backticks; a link mark in the same list produces no
link wrapping. -/
theorem code_mark_suppresses_link (text : String) (marks : List JVal)
    (hobj : ∀ m ∈ marks, ∃ fs, m = .obj fs)
    (hcode : ∃ m ∈ marks, pyGet m "type" = .ok (.str "code")) :
    _apply_marks text marks = .ok ("`" ++ str_replace_char text '`' "\\`" ++ "`") := by
  have hie : marks.isEmpty = false := by
    rcases hcode with ⟨m, hm, _⟩
    cases marks
    · cases hm
    · rfl
  simp only [_apply_marks, hie, Bool.false_eq_true, if_false]
  rw [any_code_mark_true marks hobj hcode, ebind_ok, if_pos rfl]

/-- C9 witness: the theorem applied at text `"a*b"` and the concrete marks
list holding a code mark and a link mark with a non-empty href. -/
theorem code_mark_suppresses_link_witness :
    (∀ m ∈ code_link_marks, ∃ fs, m = .obj fs) ∧
    (∃ m ∈ code_link_marks, pyGet m "type" = .ok (.str "code")) ∧
    _apply_marks "a*b" code_link_marks = .ok ("`" ++ str_replace_char "a*b" '`' "\\`" ++ "`") := by
  have hobj : ∀ m ∈ code_link_marks, ∃ fs, m = .obj fs := by
    intro m hm
    rcases List.mem_cons.mp hm with he | hm
    · exact ⟨_, he⟩
    rcases List.mem_cons.mp hm with he | hm
    · exact ⟨_, he⟩
    cases hm
  have hcode : ∃ m ∈ code_link_marks, pyGet m "type" = .ok (.str "code") :=
    ⟨mk_mark "code", List.mem_cons_self _ _, rfl⟩
  exact ⟨hobj, hcode, code_mark_suppresses_link "a*b" code_link_marks hobj hcode⟩

/-! ## C4: document unwrapping priority -/

/-- C4: `_extract_doc` resolves by first match in the order the spec gives —
the value itself is a doc node, then its body field, then its description
field, then a content list together with a non-null version field — and
when no document is found `render_markdown` returns the empty string
instead of raising. -/
theorem extract_doc_priority_and_empty (fuel : Nat) (v : JVal) :
    _extract_doc v = spec_extract_doc v ∧
    (_extract_doc v = none → render_markdown fuel v = .ok "") := by
  constructor
  · cases v <;> rfl
  · intro h
    simp [render_markdown, h]

/-- C4 witness: the theorem applied at a non-dict input, where no document
is found and the render result is the empty string. -/
theorem extract_doc_priority_and_empty_witness :
    _extract_doc (JVal.num 3) = spec_extract_doc (JVal.num 3) ∧
    render_markdown 1 (JVal.num 3) = .ok "" :=
  ⟨(extract_doc_priority_and_empty 1 (.num 3)).1,
    (extract_doc_priority_and_empty 1 (.num 3)).2 rfl⟩

/-! ## C2: the renderer can raise on malformed input -/

/-- C2: the claim says `render_markdown` never raises on any input.  The
code raises: a heading whose `attrs.level` is the string `"x"` reaches
`int("x")`, a ValueError, and a document whose content list holds a bare
string reaches `node.get("type")` on a non-dict, an AttributeError.  Both
are modelled errors of the embedding, not ok-strings. -/
theorem render_markdown_raises_on_malformed :
    render_markdown 30 c2_bad_input = .error "ValueError" ∧
    render_markdown 30 (mkDoc [.str "plain"]) = .error "AttributeError" :=
  ⟨rfl, rfl⟩

/-! ## C3: headerless tables duplicate their first row -/

/-- C3: the claim says a headerless table renders exactly one pipe line per
source row with no duplicates.  The code slices `rendered_rows[0:]` after
already emitting the first row, so a one-row headerless table renders two
identical pipe lines rather than the claimed single line. -/
theorem headerless_table_duplicates_first_row :
    render_markdown 30 c3_headerless_table_doc = .ok "| a |\n| a |" ∧
    (pySplitlines "| a |\n| a |").length = 2 ∧
    ("| a |\n| a |" : String) ≠ "| a |" :=
  ⟨rfl, rfl, by decide⟩

/-! ## C8: determinism -/

/-- C8: the renderer is deterministic — the `_MarkdownRenderer` instance
holds no fields and the rendering path reads and writes no global state, so
its embedding is a pure function of the input value and equal inputs give
byte-identical outputs. -/
theorem render_markdown_deterministic (fuel : Nat) (v w : JVal) (h : v = w) :
    render_markdown fuel v = render_markdown fuel w := by
  rw [h]

/-- C8 witness: the theorem applied at a concrete input. -/
theorem render_markdown_deterministic_witness :
    render_markdown 3 JVal.null = render_markdown 3 JVal.null :=
  render_markdown_deterministic 3 JVal.null JVal.null rfl

/-! ## Lemmas about `para_loop` -/

theorem str_empty_append (s : String) : "" ++ s = s := by
  cases s
  rfl

theorem para_loop_nil (f : Nat) (prev : List String) (cur : String) :
    para_loop f [] prev cur = .ok (prev ++ [cur]) := by
  cases f <;> rfl

theorem para_loop_cons_break (f : Nat) (c : JVal) (rest : List JVal)
    (prev : List String) (cur : String)
    (ht : pyGet c "type" = .ok (.str "hardBreak")) :
    para_loop (f + 1) (c :: rest) prev cur =
      para_loop f rest (prev ++ [pyRstrip cur ++ "  "]) "" := by
  show (do
      let t ← pyGet c "type"
      if jstr_eq t "hardBreak" then
        para_loop f rest (prev ++ [pyRstrip cur ++ "  "]) ""
      else do
        let s ← _render_inline f c
        para_loop f rest prev (cur ++ s)) = _
  rw [ht, ebind_ok]
  rfl

theorem para_loop_cons_inline (f : Nat) (c : JVal) (rest : List JVal)
    (prev : List String) (cur : String) (t : JVal) (s : String)
    (ht : pyGet c "type" = .ok t) (hnb : jstr_eq t "hardBreak" = false)
    (hs : _render_inline f c = .ok s) :
    para_loop (f + 1) (c :: rest) prev cur = para_loop f rest prev (cur ++ s) := by
  show (do
      let t ← pyGet c "type"
      if jstr_eq t "hardBreak" then
        para_loop f rest (prev ++ [pyRstrip cur ++ "  "]) ""
      else do
        let s ← _render_inline f c
        para_loop f rest prev (cur ++ s)) = _
  rw [ht, ebind_ok, hnb]
  simp only [Bool.false_eq_true, if_false]
  rw [hs, ebind_ok]

theorem ebind_err {α β : Type} (e : String) (g : α → Except String β) :
    ((Except.error e : Except String α) >>= g) = .error e := rfl

theorem str_append_empty (s : String) : s ++ "" = s := by
  cases s with
  | mk l =>
    show String.mk (l ++ []) = String.mk l
    rw [List.append_nil]

theorem para_loop_cons_nb_eq (g : Nat) (c : JVal) (rest : List JVal)
    (prev : List String) (cur : String) (t : JVal)
    (ht : pyGet c "type" = .ok t) (hnb : jstr_eq t "hardBreak" = false) :
    para_loop (g + 1) (c :: rest) prev cur =
      (_render_inline g c) >>= fun s => para_loop g rest prev (cur ++ s) := by
  show (do
      let t ← pyGet c "type"
      if jstr_eq t "hardBreak" then
        para_loop g rest (prev ++ [pyRstrip cur ++ "  "]) ""
      else do
        let s ← _render_inline g c
        para_loop g rest prev (cur ++ s)) = _
  rw [ht, ebind_ok, hnb]
  simp only [Bool.false_eq_true, if_false]

theorem para_loop_all_empty : ∀ children : List JVal,
    (∀ c ∈ children, ∃ t, pyGet c "type" = .ok t ∧ jstr_eq t "hardBreak" = false) →
    (∀ c ∈ children, ∀ (g : Nat) (s : String), _render_inline g c = .ok s → s = "") →
    ∀ (f : Nat) (prev : List String) (cur : String) (ls : List String),
      para_loop f children prev cur = .ok ls → ls = prev ++ [cur] := by
  intro children
  induction children with
  | nil =>
    intro _ _ f prev cur ls h
    rw [para_loop_nil] at h
    exact (Except.ok.inj h).symm
  | cons c rest ih =>
    intro hnb hempty f prev cur ls h
    match f with
    | 0 => exact Except.noConfusion h
    | g + 1 =>
      obtain ⟨t, ht, hnbc⟩ := hnb c (List.mem_cons_self _ _)
      rw [para_loop_cons_nb_eq g c rest prev cur t ht hnbc] at h
      cases hs : _render_inline g c with
      | error e =>
        rw [hs, ebind_err] at h
        exact Except.noConfusion h
      | ok s =>
        rw [hs, ebind_ok] at h
        have hse : s = "" := hempty c (List.mem_cons_self _ _) g s hs
        subst hse
        rw [str_append_empty] at h
        exact ih (fun x hx => hnb x (List.mem_cons_of_mem _ hx))
          (fun x hx => hempty x (List.mem_cons_of_mem _ hx)) g prev cur ls h

/-! ## C10: empty paragraphs are kept as one empty line -/

/-- C10: a paragraph whose children are all non-hardBreak nodes rendering to
the empty string (in particular a paragraph with no content) renders to
exactly one empty line, so block joining keeps it: a doc of two empty
paragraphs renders to the string of two newlines, while a doc of a single
empty paragraph renders to the empty string. -/
theorem empty_paragraph_single_empty_line :
    (∀ (f : Nat) (node : JVal) (children : List JVal) (ls : List String),
        pyGet node "content" = .ok (.arr children) →
        (∀ c ∈ children, ∃ t, pyGet c "type" = .ok t ∧ jstr_eq t "hardBreak" = false) →
        (∀ c ∈ children, ∀ (g : Nat) (s : String), _render_inline g c = .ok s → s = "") →
        _render_paragraph_lines f node = .ok ls → ls = [""]) ∧
    render_markdown 20 (mkDoc [mkPara [], mkPara []]) = .ok "\n\n" ∧
    render_markdown 20 (mkDoc [mkPara []]) = .ok "" := by
  refine ⟨?_, rfl, rfl⟩
  intro f node children ls hget hnb hempty h
  match f with
  | 0 => exact Except.noConfusion h
  | g + 1 =>
    have e0 : _render_paragraph_lines (g + 1) node = para_loop g children [] "" := by
      show (do
          let children ← pyIter (pyOr (← pyGet node "content") (.arr []))
          para_loop g children [] "") = _
      rw [hget, ebind_ok]
      cases children <;> rfl
    rw [e0] at h
    exact para_loop_all_empty children hnb hempty g [] "" ls h

/-- C10 witness: the general part of the theorem applied to a paragraph
holding one empty text run. -/
theorem empty_paragraph_single_empty_line_witness :
    _render_paragraph_lines 3 (mkPara [mkText ""]) = .ok [""] ∧
    ([""] : List String) = [""] := by
  have hrun : _render_paragraph_lines 3 (mkPara [mkText ""]) = .ok [""] := rfl
  refine ⟨hrun, ?_⟩
  refine empty_paragraph_single_empty_line.1 3 (mkPara [mkText ""]) [mkText ""] [""] rfl ?_ ?_ hrun
  · intro c hc
    rw [List.mem_singleton.mp hc]
    exact ⟨.str "text", rfl, rfl⟩
  · intro c hc g s h
    rw [List.mem_singleton.mp hc] at h
    cases g with
    | zero => exact Except.noConfusion h
    | succ g' => exact (Except.ok.inj h).symm

/-! ## C7: hard break inside a paragraph -/

/-- C7: a paragraph whose content is a text run, a hardBreak, and a second
text run renders as two lines — the first is the first run's rendering with
trailing whitespace trimmed and two spaces appended, the second is the
second run's rendering. -/
theorem paragraph_hard_break_two_lines (f : Nat) (node c1 br c2 : JVal) (s1 s2 : String)
    (hnode : pyGet node "content" = .ok (.arr [c1, br, c2]))
    (hbr : pyGet br "type" = .ok (.str "hardBreak"))
    (h1t : pyGet c1 "type" = .ok (.str "text"))
    (h2t : pyGet c2 "type" = .ok (.str "text"))
    (h1 : _render_inline (f + 2) c1 = .ok s1)
    (h2 : _render_inline f c2 = .ok s2) :
    _render_paragraph_lines (f + 4) node = .ok [pyRstrip s1 ++ "  ", s2] := by
  have e0 : _render_paragraph_lines (f + 4) node = para_loop (f + 3) [c1, br, c2] [] "" := by
    show (do
        let children ← pyIter (pyOr (← pyGet node "content") (.arr []))
        para_loop (f + 3) children [] "") = _
    rw [hnode, ebind_ok]
    rfl
  rw [e0]
  show para_loop ((f + 2) + 1) [c1, br, c2] [] "" = _
  rw [para_loop_cons_inline (f + 2) c1 [br, c2] [] "" (.str "text") s1 h1t rfl h1]
  show para_loop ((f + 1) + 1) [br, c2] [] ("" ++ s1) = _
  rw [para_loop_cons_break (f + 1) br [c2] [] ("" ++ s1) hbr]
  rw [para_loop_cons_inline f c2 [] ([] ++ [pyRstrip ("" ++ s1) ++ "  "]) "" (.str "text") s2 h2t rfl h2]
  rw [para_loop_nil, str_empty_append, str_empty_append]
  rfl

/-- C7 witness: the theorem applied at the concrete paragraph holding the
runs `"Hello "` and `"world"` around a hard break. -/
theorem paragraph_hard_break_two_lines_witness :
    pyGet (mkPara [mkText "Hello ", mk_mark "hardBreak", mkText "world"]) "content" =
      .ok (.arr [mkText "Hello ", mk_mark "hardBreak", mkText "world"]) ∧
    _render_paragraph_lines 5 (mkPara [mkText "Hello ", mk_mark "hardBreak", mkText "world"]) =
      .ok ["Hello  ", "world"] :=
  ⟨rfl,
    paragraph_hard_break_two_lines 1 (mkPara [mkText "Hello ", mk_mark "hardBreak", mkText "world"])
      (mkText "Hello ") (mk_mark "hardBreak") (mkText "world") "Hello " "world"
      rfl rfl rfl rfl rfl rfl⟩

/-! ## Lemmas for list rendering -/

theorem str_append_assoc (a b c : String) : a ++ b ++ c = a ++ (b ++ c) := by
  cases a with
  | mk la =>
    cases b with
    | mk lb =>
      cases c with
      | mk lc =>
        show String.mk (la ++ lb ++ lc) = String.mk (la ++ (lb ++ lc))
        rw [List.append_assoc]

theorem pyRstrip_last_of_not_space (l : List Char) (c : Char) (hc : pyIsSpace c = false) :
    pyRstrip ⟨l ++ [c]⟩ = ⟨l ++ [c]⟩ := by
  unfold pyRstrip
  congr 1
  rw [List.reverse_append]
  show ((([c] : List Char) ++ l.reverse).dropWhile pyIsSpace).reverse = l ++ [c]
  rw [List.singleton_append, List.dropWhile_cons, hc]
  simp only [Bool.false_eq_true, if_false]
  rw [List.reverse_cons, List.reverse_reverse]

theorem pyRstrip_append_space (s : String) : pyRstrip (s ++ " ") = pyRstrip s := by
  cases s with
  | mk l =>
    show pyRstrip ⟨l ++ [' ']⟩ = pyRstrip ⟨l⟩
    unfold pyRstrip
    congr 1
    rw [List.reverse_append]
    show ((([' '] : List Char) ++ l.reverse).dropWhile pyIsSpace).reverse = _
    rw [List.singleton_append, List.dropWhile_cons]
    have hsp : pyIsSpace ' ' = true := rfl
    rw [hsp]
    simp only [if_true]

theorem bullet_rstrip (x : String) : pyRstrip ((x ++ ".") ++ " ") = x ++ "." := by
  rw [pyRstrip_append_space]
  cases x with
  | mk l =>
    show pyRstrip ⟨l ++ ['.']⟩ = ⟨l ++ ['.']⟩
    exact pyRstrip_last_of_not_space l '.' rfl

theorem ord_bullet_rstrip (lvl : Nat) (idx : Int) :
    pyRstrip (ord_bullet lvl idx) = str_repeat INDENT lvl ++ toString idx ++ "." ++ "" := by
  show pyRstrip ((str_repeat INDENT lvl ++ (toString idx ++ ".")) ++ " ") = _
  rw [← str_append_assoc (str_repeat INDENT lvl) (toString idx) "."]
  rw [bullet_rstrip (str_repeat INDENT lvl ++ toString idx)]
  rw [str_append_empty]

theorem ord_bullet_head_append (lvl : Nat) (idx : Int) (p : String) :
    ord_bullet lvl idx ++ p = str_repeat INDENT lvl ++ toString idx ++ "." ++ (" " ++ p) := by
  show ((str_repeat INDENT lvl ++ (toString idx ++ ".")) ++ " ") ++ p = _
  rw [str_append_assoc (str_repeat INDENT lvl ++ (toString idx ++ ".")) " " p,
    ← str_append_assoc (str_repeat INDENT lvl) (toString idx) "."]

theorem ebind_ok_inv {α β : Type} {x : Except String α} {g : α → Except String β} {b : β}
    (h : (x >>= g) = .ok b) : ∃ a, x = .ok a ∧ g a = .ok b := by
  cases x with
  | error e =>
    rw [ebind_err] at h
    exact Except.noConfusion h
  | ok a =>
    rw [ebind_ok] at h
    exact ⟨a, rfl, h⟩

theorem pyIter_pyOr_arr (xs : List JVal) : pyIter (pyOr (.arr xs) (.arr [])) = .ok xs := by
  cases xs <;> rfl

theorem list_items_loop_nil (f : Nat) (lvl : Nat) (ordered : Bool) (idx : Int) :
    list_items_loop f [] lvl ordered idx = .ok [] := by
  cases f <;> rfl

/-- `_render_list_item` at positive fuel for an ordered item, written as an
explicit bind chain (the source's locals `bullet_prefix` and
`continuation_prefix` are `ord_bullet` and `ord_cont`). -/
theorem render_list_item_succ_eq (g : Nat) (node : JVal) (lvl : Nat) (idx : Int) :
    _render_list_item (g + 1) node lvl true idx =
      (pyGet node "content" >>= fun cv =>
        if !(pyOr cv (.arr [])).truthy then .ok [pyRstrip (ord_bullet lvl idx)]
        else
          pyIter (pyOr cv (.arr [])) >>= fun content =>
          match content with
          | [] => .error "IndexError"
          | first :: rest =>
            pyGet first "type" >>= fun t =>
            if jstr_eq t "paragraph" then
              _render_paragraph_lines g first >>= fun pls =>
              match pls with
              | [] =>
                blocks_in_list_loop g rest lvl (ord_cont lvl idx) >>= fun tailLines =>
                .ok ([pyRstrip (ord_bullet lvl idx)] ++ tailLines)
              | p0 :: prest =>
                blocks_in_list_loop g rest lvl (ord_cont lvl idx) >>= fun tailLines =>
                .ok (((ord_bullet lvl idx ++ p0) :: prest.map (fun l => ord_cont lvl idx ++ l)) ++
                  tailLines)
            else
              _render_block_in_list g first lvl (ord_cont lvl idx) >>= fun bl =>
              blocks_in_list_loop g rest lvl (ord_cont lvl idx) >>= fun tailLines =>
              .ok ((pyRstrip (ord_bullet lvl idx) :: bl) ++ tailLines)) := rfl

/-- An ordered list item's rendered lines are non-empty and the first line
starts with the indentation, the bullet index and a dot. -/
theorem render_list_item_head (g : Nat) (item : JVal) (lvl : Nat) (idx : Int)
    (out : List String) (h : _render_list_item g item lvl true idx = .ok out) :
    out ≠ [] ∧ ∃ more, out.headD "" = str_repeat INDENT lvl ++ toString idx ++ "." ++ more := by
  match g with
  | 0 => exact Except.noConfusion h
  | g + 1 =>
    rw [render_list_item_succ_eq] at h
    cases hcv : pyGet item "content" with
    | error e =>
      rw [hcv, ebind_err] at h
      exact Except.noConfusion h
    | ok cv =>
      rw [hcv, ebind_ok] at h
      by_cases htr : (pyOr cv (.arr [])).truthy = true
      · have hcond : ¬((!(pyOr cv (.arr [])).truthy) = true) := by
          rw [htr]
          simp
        rw [if_neg hcond] at h
        cases hcs : pyIter (pyOr cv (.arr [])) with
        | error e =>
          rw [hcs, ebind_err] at h
          exact Except.noConfusion h
        | ok cs =>
          rw [hcs, ebind_ok] at h
          cases cs with
          | nil => exact Except.noConfusion h
          | cons first rest =>
            simp only [] at h
            cases ht : pyGet first "type" with
            | error e =>
              rw [ht, ebind_err] at h
              exact Except.noConfusion h
            | ok t =>
              rw [ht, ebind_ok] at h
              by_cases hp : jstr_eq t "paragraph" = true
              · rw [if_pos hp] at h
                cases hpl : _render_paragraph_lines g first with
                | error e =>
                  rw [hpl, ebind_err] at h
                  exact Except.noConfusion h
                | ok pls =>
                  rw [hpl, ebind_ok] at h
                  cases pls with
                  | nil =>
                    cases htl : blocks_in_list_loop g rest lvl (ord_cont lvl idx) with
                    | error e =>
                      rw [htl, ebind_err] at h
                      exact Except.noConfusion h
                    | ok tl =>
                      rw [htl, ebind_ok] at h
                      have hout : out = [pyRstrip (ord_bullet lvl idx)] ++ tl :=
                        (Except.ok.inj h).symm
                      subst hout
                      exact ⟨by simp, "", by simp [ord_bullet_rstrip lvl idx]⟩
                  | cons p0 prest =>
                    cases htl : blocks_in_list_loop g rest lvl (ord_cont lvl idx) with
                    | error e =>
                      rw [htl, ebind_err] at h
                      exact Except.noConfusion h
                    | ok tl =>
                      rw [htl, ebind_ok] at h
                      have hout :
                          out = ((ord_bullet lvl idx ++ p0) ::
                            prest.map (fun l => ord_cont lvl idx ++ l)) ++ tl :=
                        (Except.ok.inj h).symm
                      subst hout
                      refine ⟨by simp, " " ++ p0, ?_⟩
                      simp [ord_bullet_head_append lvl idx p0]
              · rw [if_neg hp] at h
                cases hbl : _render_block_in_list g first lvl (ord_cont lvl idx) with
                | error e =>
                  rw [hbl, ebind_err] at h
                  exact Except.noConfusion h
                | ok bl =>
                  rw [hbl, ebind_ok] at h
                  cases htl : blocks_in_list_loop g rest lvl (ord_cont lvl idx) with
                  | error e =>
                    rw [htl, ebind_err] at h
                    exact Except.noConfusion h
                  | ok tl =>
                    rw [htl, ebind_ok] at h
                    have hout : out = (pyRstrip (ord_bullet lvl idx) :: bl) ++ tl :=
                      (Except.ok.inj h).symm
                    subst hout
                    exact ⟨by simp, "", by simp [ord_bullet_rstrip lvl idx]⟩
      · have hf : (pyOr cv (.arr [])).truthy = false := by
          revert htr
          cases (pyOr cv (.arr [])).truthy <;> simp
        have hcond : (!(pyOr cv (.arr [])).truthy) = true := by
          rw [hf]
          rfl
        rw [if_pos hcond] at h
        have hout : out = [pyRstrip (ord_bullet lvl idx)] := (Except.ok.inj h).symm
        subst hout
        exact ⟨by simp, "", by simp [ord_bullet_rstrip lvl idx]⟩

theorem list_items_loop_succ_eq (g : Nat) (item : JVal) (rest : List JVal)
    (lvl : Nat) (idx : Int) :
    list_items_loop (g + 1) (item :: rest) lvl true idx =
      (_render_list_item g item lvl true idx >>= fun ls =>
        list_items_loop g rest lvl true (idx + 1) >>= fun rs =>
        .ok (ls ++ rs)) := rfl

theorem list_items_loop_numbered : ∀ (items : List JVal) (f lvl : Nat) (idx : Int)
    (lines : List String), list_items_loop f items lvl true idx = .ok lines →
    ∃ outs, lines = outs.flatten ∧ numbered_items_out lvl items idx outs := by
  intro items
  induction items with
  | nil =>
    intro f lvl idx lines h
    rw [list_items_loop_nil] at h
    refine ⟨[], (Except.ok.inj h).symm, rfl⟩
  | cons item rest ih =>
    intro f lvl idx lines h
    match f with
    | 0 => exact Except.noConfusion h
    | g + 1 =>
      rw [list_items_loop_succ_eq] at h
      cases hitem : _render_list_item g item lvl true idx with
      | error e =>
        rw [hitem, ebind_err] at h
        exact Except.noConfusion h
      | ok out =>
        rw [hitem, ebind_ok] at h
        cases hrest : list_items_loop g rest lvl true (idx + 1) with
        | error e =>
          rw [hrest, ebind_err] at h
          exact Except.noConfusion h
        | ok rs =>
          rw [hrest, ebind_ok] at h
          have hlines : lines = out ++ rs := (Except.ok.inj h).symm
          obtain ⟨outs, hflat, hnum⟩ := ih g lvl (idx + 1) rs hrest
          obtain ⟨hne, more, hhead⟩ := render_list_item_head g item lvl idx out hitem
          refine ⟨out :: outs, ?_, out, outs, rfl, ⟨g, hitem⟩, hne, ⟨more, hhead⟩, hnum⟩
          rw [hlines, hflat]
          rfl

/-! ## C6: ordered list numbering -/

/-- C6: rendering an orderedList node whose `attrs.order` is the integer `s`
(or defaults to 1 when absent, via `pyGetD`) renders its items with bullet
indices `s`, `s + 1`, `s + 2`, ... in source order — each item's first line
carries its own number — independent of any numbering in the items
themselves. -/
theorem ordered_list_numbering (f : Nat) (node attrsv : JVal) (s : Int) (lvl : Nat)
    (items : List JVal) (lines : List String)
    (hattrs : pyGetD node "attrs" (.obj []) = .ok attrsv)
    (horder : pyGetD attrsv "order" (.num 1) = .ok (.num s))
    (hcontent : pyGet node "content" = .ok (.arr items))
    (hrun : _render_list (f + 1) node lvl true = .ok lines) :
    ∃ outs : List (List String), lines = outs.flatten ∧ numbered_items_out lvl items s outs := by
  have e0 : _render_list (f + 1) node lvl true = list_items_loop f items lvl true s := by
    show (do
        let a ← pyGetD node "attrs" (.obj [])
        let startv ← pyGetD a "order" (.num 1)
        let index ← if true then pyInt startv else pure 1
        let its ← pyIter (pyOr (← pyGet node "content") (.arr []))
        list_items_loop f its lvl true index) = _
    rw [hattrs, ebind_ok, horder, ebind_ok]
    show (pyGet node "content" >>= fun x =>
      pyIter (pyOr x (.arr [])) >>= fun its => list_items_loop f its lvl true s) = _
    rw [hcontent, ebind_ok, pyIter_pyOr_arr, ebind_ok]
  rw [e0] at hrun
  exact list_items_loop_numbered items f lvl s lines hrun

/-- C6 witness: the theorem applied at the concrete ordered list with
`attrs.order = 5` and three one-paragraph items, whose lines are
`5. a`, `6. b`, `7. c`. -/
theorem ordered_list_numbering_witness :
    _render_list 10 ord5_list_node 0 true = .ok ["5. a", "6. b", "7. c"] ∧
    ∃ outs : List (List String), (["5. a", "6. b", "7. c"] : List String) = outs.flatten ∧
      numbered_items_out 0 ord5_items 5 outs :=
  ⟨rfl, ordered_list_numbering 9 ord5_list_node (.obj [("order", .num 5)]) 5 0 ord5_items
    ["5. a", "6. b", "7. c"] rfl rfl rfl rfl⟩

/-! ## Lemmas for table rendering -/

theorem cells_loop_nil (f : Nat) (h0 : Bool) : cells_loop f [] h0 = .ok ([], h0) := by
  cases f <;> rfl

theorem table_rows_loop_nil (f : Nat) (h0 : Bool) :
    table_rows_loop f [] h0 = .ok ([], h0) := by
  cases f <;> rfl

theorem cells_loop_succ_eq (f : Nat) (cell : JVal) (rest : List JVal) (h0 : Bool) :
    cells_loop (f + 1) (cell :: rest) h0 =
      (pyGet cell "type" >>= fun t =>
        _render_cell f cell >>= fun cellLines =>
        cells_loop f rest (if jstr_eq t "tableHeader" then true else h0) >>= fun p =>
        match p with
        | (srest, h2) => .ok (pyStrip (strJoin "<br>" cellLines) :: srest, h2)) := rfl

theorem table_rows_loop_succ_eq (f : Nat) (row : JVal) (rest : List JVal) (h0 : Bool) :
    table_rows_loop (f + 1) (row :: rest) h0 =
      (pyGet row "content" >>= fun cv =>
        pyIter (pyOr cv (.arr [])) >>= fun cells =>
        cells_loop f cells h0 >>= fun p =>
        match p with
        | (rcells, h1) =>
          table_rows_loop f rest h1 >>= fun q =>
          match q with
          | (rrest, h2) => .ok (rcells :: rrest, h2)) := rfl

theorem render_table_succ_eq (f : Nat) (node : JVal) :
    _render_table (f + 1) node =
      (pyGet node "content" >>= fun cv =>
        if !(pyOr cv (.arr [])).truthy then .ok []
        else
          pyIter (pyOr cv (.arr [])) >>= fun rows =>
          table_rows_loop f rows false >>= fun p =>
          match p with
          | (rrows, headerRow) =>
            match rrows with
            | [] => .ok []
            | r0 :: rest =>
              let colCount := rest.foldl (fun acc r => max acc r.length) r0.length
              let lines := if headerRow then [pipe_line colCount r0, sep_line colCount]
                else [pipe_line colCount r0]
              let tailRows := if headerRow then rest else r0 :: rest
              .ok (lines ++ tailRows.map (pipe_line colCount))) := rfl

theorem cells_loop_true_flag : ∀ (cs : List JVal) (f : Nat) (p : List String × Bool),
    cells_loop f cs true = .ok p → p.2 = true := by
  intro cs
  induction cs with
  | nil =>
    intro f p h
    rw [cells_loop_nil] at h
    rw [← Except.ok.inj h]
  | cons c rest ih =>
    intro f p h
    match f with
    | 0 => exact Except.noConfusion h
    | g + 1 =>
      rw [cells_loop_succ_eq] at h
      obtain ⟨t, ht, h⟩ := ebind_ok_inv h
      obtain ⟨cl, hcl, h⟩ := ebind_ok_inv h
      obtain ⟨q, hq, h⟩ := ebind_ok_inv h
      rw [ite_self] at hq
      cases q with
      | mk srest h2 =>
        have h2t : h2 = true := ih g (srest, h2) hq
        rw [← Except.ok.inj h]
        exact h2t

theorem cells_loop_header_flag : ∀ (cs : List JVal) (f : Nat) (h0 : Bool)
    (p : List String × Bool), (∃ c ∈ cs, pyGet c "type" = .ok (.str "tableHeader")) →
    cells_loop f cs h0 = .ok p → p.2 = true := by
  intro cs
  induction cs with
  | nil =>
    intro f h0 p hex h
    rcases hex with ⟨c, hc, _⟩
    cases hc
  | cons c rest ih =>
    intro f h0 p hex h
    match f with
    | 0 => exact Except.noConfusion h
    | g + 1 =>
      rw [cells_loop_succ_eq] at h
      obtain ⟨t, ht, h⟩ := ebind_ok_inv h
      obtain ⟨cl, hcl, h⟩ := ebind_ok_inv h
      obtain ⟨q, hq, h⟩ := ebind_ok_inv h
      cases q with
      | mk srest h2 =>
        have h2t : h2 = true := by
          rcases hex with ⟨c', hc', htype⟩
          rcases List.mem_cons.mp hc' with he | hmem
          · subst he
            rw [ht] at htype
            have het : t = .str "tableHeader" := Except.ok.inj htype
            subst het
            rw [show (if jstr_eq (JVal.str "tableHeader") "tableHeader" = true
              then true else h0) = true from rfl] at hq
            exact cells_loop_true_flag rest g (srest, h2) hq
          · exact ih g _ (srest, h2) ⟨c', hmem, htype⟩ hq
        rw [← Except.ok.inj h]
        exact h2t

theorem table_rows_loop_true_flag : ∀ (rows : List JVal) (f : Nat)
    (p : List (List String) × Bool), table_rows_loop f rows true = .ok p → p.2 = true := by
  intro rows
  induction rows with
  | nil =>
    intro f p h
    rw [table_rows_loop_nil] at h
    rw [← Except.ok.inj h]
  | cons row rest ih =>
    intro f p h
    match f with
    | 0 => exact Except.noConfusion h
    | g + 1 =>
      rw [table_rows_loop_succ_eq] at h
      obtain ⟨cv, hcv, h⟩ := ebind_ok_inv h
      obtain ⟨cells, hcells, h⟩ := ebind_ok_inv h
      obtain ⟨q, hq, h⟩ := ebind_ok_inv h
      cases q with
      | mk rcells h1 =>
        have h1t : h1 = true := cells_loop_true_flag cells g (rcells, h1) hq
        subst h1t
        obtain ⟨q2, hq2, h⟩ := ebind_ok_inv h
        cases q2 with
        | mk rrest h2 =>
          have h2t : h2 = true := ih g (rrest, h2) hq2
          rw [← Except.ok.inj h]
          exact h2t

theorem table_rows_loop_header_flag : ∀ (rows : List JVal) (f : Nat) (h0 : Bool)
    (p : List (List String) × Bool), (∃ row ∈ rows, row_has_header row) →
    table_rows_loop f rows h0 = .ok p → p.2 = true := by
  intro rows
  induction rows with
  | nil =>
    intro f h0 p hex h
    rcases hex with ⟨row, hrow, _⟩
    cases hrow
  | cons row rest ih =>
    intro f h0 p hex h
    match f with
    | 0 => exact Except.noConfusion h
    | g + 1 =>
      rw [table_rows_loop_succ_eq] at h
      obtain ⟨cv, hcv, h⟩ := ebind_ok_inv h
      obtain ⟨cells, hcells, h⟩ := ebind_ok_inv h
      obtain ⟨q, hq, h⟩ := ebind_ok_inv h
      cases q with
      | mk rcells h1 =>
        obtain ⟨q2, hq2, h⟩ := ebind_ok_inv h
        cases q2 with
        | mk rrest h2 =>
          have h2t : h2 = true := by
            rcases hex with ⟨row', hrow', hhh⟩
            rcases List.mem_cons.mp hrow' with he | hmem
            · subst he
              rcases hhh with ⟨cv', cells', hcv', hcells', hex'⟩
              rw [hcv] at hcv'
              have hcve : cv = cv' := Except.ok.inj hcv'
              subst hcve
              rw [hcells] at hcells'
              have hcelle : cells = cells' := Except.ok.inj hcells'
              subst hcelle
              have h1t : h1 = true := cells_loop_header_flag cells g h0 (rcells, h1) hex' hq
              subst h1t
              exact table_rows_loop_true_flag rest g (rrest, h2) hq2
            · exact ih g h1 (rrest, h2) ⟨row', hmem, hhh⟩ hq2
          rw [← Except.ok.inj h]
          exact h2t

theorem table_rows_loop_length : ∀ (rows : List JVal) (f : Nat) (h0 : Bool)
    (p : List (List String) × Bool), table_rows_loop f rows h0 = .ok p →
    p.1.length = rows.length := by
  intro rows
  induction rows with
  | nil =>
    intro f h0 p h
    rw [table_rows_loop_nil] at h
    rw [← Except.ok.inj h]
    rfl
  | cons row rest ih =>
    intro f h0 p h
    match f with
    | 0 => exact Except.noConfusion h
    | g + 1 =>
      rw [table_rows_loop_succ_eq] at h
      obtain ⟨cv, hcv, h⟩ := ebind_ok_inv h
      obtain ⟨cells, hcells, h⟩ := ebind_ok_inv h
      obtain ⟨q, hq, h⟩ := ebind_ok_inv h
      cases q with
      | mk rcells h1 =>
        obtain ⟨q2, hq2, h⟩ := ebind_ok_inv h
        cases q2 with
        | mk rrest h2 =>
          have hlen : rrest.length = rest.length := ih g h1 (rrest, h2) hq2
          rw [← Except.ok.inj h]
          show (rcells :: rrest).length = (row :: rest).length
          simp [hlen]

/-! ## C5: two-row header tables -/

/-- C5: a two-row table whose first row's cells are all tableHeader nodes
(at least one) and whose second row's cells are tableCell nodes renders to
exactly three lines — the header row as a pipe line, a separator with one
`---` per column (the column count being the maximum cell count across the
rows), and the data row as a pipe line; and, in general, a single
tableHeader cell anywhere in any row forces the whole table's
header-bearing flag to true. -/
theorem two_row_header_table :
    (∀ (f : Nat) (tnode r1 r2 : JVal) (cells1 cells2 : List JVal) (lines : List String),
        pyGet tnode "content" = .ok (.arr [r1, r2]) →
        pyGet r1 "content" = .ok (.arr cells1) →
        pyGet r2 "content" = .ok (.arr cells2) →
        cells1 ≠ [] →
        (∀ c ∈ cells1, pyGet c "type" = .ok (.str "tableHeader")) →
        (∀ c ∈ cells2, pyGet c "type" = .ok (.str "tableCell")) →
        _render_table (f + 1) tnode = .ok lines →
        ∃ rr1 rr2 : List String,
          table_rows_loop f [r1, r2] false = .ok ([rr1, rr2], true) ∧
          lines = [pipe_line (max rr1.length rr2.length) rr1,
            sep_line (max rr1.length rr2.length),
            pipe_line (max rr1.length rr2.length) rr2]) ∧
    (∀ (f : Nat) (rows : List JVal) (h0 : Bool) (p : List (List String) × Bool),
        (∃ row ∈ rows, row_has_header row) →
        table_rows_loop f rows h0 = .ok p → p.2 = true) := by
  refine ⟨?_, fun f rows h0 p hex h => table_rows_loop_header_flag rows f h0 p hex h⟩
  intro f tnode r1 r2 cells1 cells2 lines hc h1c h2c h1ne h1h h2h hrun
  rw [render_table_succ_eq, hc, ebind_ok] at hrun
  have hcond : ¬((!(pyOr (.arr [r1, r2]) (.arr [])).truthy) = true) := by
    rw [show (!(pyOr (.arr [r1, r2]) (.arr [])).truthy) = false from rfl]
    simp
  rw [if_neg hcond, pyIter_pyOr_arr, ebind_ok] at hrun
  cases hloop : table_rows_loop f [r1, r2] false with
  | error e =>
    rw [hloop, ebind_err] at hrun
    exact Except.noConfusion hrun
  | ok p =>
    rw [hloop, ebind_ok] at hrun
    cases p with
    | mk rrows flag =>
      have hflag : flag = true := by
        have hdr : row_has_header r1 := by
          rcases cells1 with _ | ⟨c0, cs⟩
          · exact absurd rfl h1ne
          · exact ⟨.arr (c0 :: cs), c0 :: cs, h1c, pyIter_pyOr_arr _,
              c0, List.mem_cons_self _ _, h1h c0 (List.mem_cons_self _ _)⟩
        exact table_rows_loop_header_flag [r1, r2] f false (rrows, flag)
          ⟨r1, List.mem_cons_self _ _, hdr⟩ hloop
      subst hflag
      have hlen : rrows.length = 2 :=
        table_rows_loop_length [r1, r2] f false (rrows, true) hloop
      rcases List.length_eq_two.mp hlen with ⟨rr1, rr2, rfl⟩
      exact ⟨rr1, rr2, rfl, (Except.ok.inj hrun).symm⟩

/-- C5 witness: the first part of the theorem applied at a concrete
two-column table with header cells `h1`, `h2` and data cells `d1`, `d2`. -/
theorem two_row_header_table_witness :
    _render_table 20 c5_table_node = .ok ["| h1 | h2 |", "| --- | --- |", "| d1 | d2 |"] ∧
    (∃ rr1 rr2 : List String,
      table_rows_loop 19 [c5_row1, c5_row2] false = .ok ([rr1, rr2], true) ∧
      (["| h1 | h2 |", "| --- | --- |", "| d1 | d2 |"] : List String) =
        [pipe_line (max rr1.length rr2.length) rr1, sep_line (max rr1.length rr2.length),
          pipe_line (max rr1.length rr2.length) rr2]) := by
  refine ⟨rfl, ?_⟩
  refine two_row_header_table.1 19 c5_table_node c5_row1 c5_row2
    [mk_header_cell "h1", mk_header_cell "h2"] [mk_data_cell "d1", mk_data_cell "d2"]
    ["| h1 | h2 |", "| --- | --- |", "| d1 | d2 |"] rfl rfl rfl
    (List.cons_ne_nil _ _) ?_ ?_ rfl
  · intro c hc
    rcases List.mem_cons.mp hc with rfl | hc
    · rfl
    rcases List.mem_cons.mp hc with rfl | hc
    · rfl
    cases hc
  · intro c hc
    rcases List.mem_cons.mp hc with rfl | hc
    · rfl
    rcases List.mem_cons.mp hc with rfl | hc
    · rfl
    cases hc

end JiraAdf
